import Mathlib

/-!
Shallow embedding of the freelance-platform backend core: the bid
lifecycle engine (`src/server/src/modules/bids/bids.service.ts`, model in
`bids.model.ts`, controller in `bids.controller.ts`) and the auth workflow
(`src/server/src/modules/auth/auth.service.ts`, user model in
`src/server/src/models/user.model.ts`).

Mongo collections are embedded as Lean lists; `findOne`/`findById` become
`List.find?`, `updateMany`/`findByIdAndUpdate` become `List.map` guarded by
the query condition, and a thrown `ApiError(status, message)` becomes
`Except.error ⟨status, message⟩`.  The bcrypt hasher, the SHA-256 hash and
JWT signing are abstracted exactly as the spec's §6 collaborator
interfaces prescribe: hash functions are parameters, a signed JWT is its
payload (claims plus issued-at and expiry), and `Date.now()` is an explicit
`now : Nat` argument in milliseconds.
-/

namespace FreelancePlatform

/-- Status enum of `bids.model.ts` (`pending | accepted | rejected | withdrawn`). -/
inductive BidStatus where
  | pending
  | accepted
  | rejected
  | withdrawn
deriving DecidableEq, Repr

/-- A bid document (`IBid` in `bids.model.ts`); `id` plays the role of Mongo `_id`. -/
structure Bid where
  id : Nat
  gigId : Nat
  freelancerId : Nat
  clientId : Nat
  amount : Nat
  deliveryTime : Nat
  proposal : String
  status : BidStatus
  attachments : List String
deriving DecidableEq, Repr

/-- The slice of a gig document the bids service reads (`gigs.model.ts`):
its `_id`, its owner (`freelancerId`) and the `isActive` flag. -/
structure Gig where
  id : Nat
  freelancerId : Nat
  isActive : Bool
deriving DecidableEq, Repr

/-- `ApiError(statusCode, message)` from `utils/apierror`. -/
structure ApiError where
  statusCode : Nat
  message : String
deriving DecidableEq, Repr

/-- The spec's §7 taxonomy maps the `Conflict` error kind (uniqueness
violated) to HTTP status 409; the code's `ApiError(400, _)` is the
taxonomy's `BadRequest`. -/
def conflictStatusCode : Nat := 409

/-- Body of a create-bid request after Joi validation
(`createBidSchema` in `bids.validate.ts`): gig id plus content fields. -/
structure BidInput where
  gigId : Nat
  amount : Nat
  deliveryTime : Nat
  proposal : String
  attachments : List String
deriving DecidableEq, Repr

/-- A `Partial<IBid>` patch as the service-level `updateBid` receives it:
any subset of the bid's mutable document fields may be present. -/
structure BidPatch where
  gigId : Option Nat
  freelancerId : Option Nat
  clientId : Option Nat
  amount : Option Nat
  deliveryTime : Option Nat
  proposal : Option String
  status : Option BidStatus
  attachments : Option (List String)
deriving DecidableEq, Repr

/-- The controller-level patch after Joi validation (`updateBidSchema` in
`bids.validate.ts`): only `amount`, `deliveryTime`, `proposal` and
`attachments` are accepted; unknown keys are rejected by Joi. -/
structure ContentPatch where
  amount : Option Nat
  deliveryTime : Option Nat
  proposal : Option String
  attachments : Option (List String)
deriving DecidableEq, Repr

/-- Injection of a validated controller patch into the service-level patch
type: all identity and status fields are absent. -/
def ContentPatch.toBidPatch (p : ContentPatch) : BidPatch :=
  { gigId := none
    freelancerId := none
    clientId := none
    amount := p.amount
    deliveryTime := p.deliveryTime
    proposal := p.proposal
    status := none
    attachments := p.attachments }

/-- Mongo `findByIdAndUpdate(bidId, updateData)` semantics on a single
document: each field present in the patch overwrites the stored field,
absent fields are kept; `_id` is immutable. -/
def applyPatch (b : Bid) (p : BidPatch) : Bid :=
  { id := b.id
    gigId := p.gigId.getD b.gigId
    freelancerId := p.freelancerId.getD b.freelancerId
    clientId := p.clientId.getD b.clientId
    amount := p.amount.getD b.amount
    deliveryTime := p.deliveryTime.getD b.deliveryTime
    proposal := p.proposal.getD b.proposal
    status := p.status.getD b.status
    attachments := p.attachments.getD b.attachments }

/-- The `'accepted' | 'rejected'` argument type of
`BidsService.updateBidStatus`, as restricted by `bidStatusSchema`. -/
inductive BidDecision where
  | accepted
  | rejected
deriving DecidableEq, Repr

/-- The bid status a decision writes. -/
def BidDecision.toStatus : BidDecision → BidStatus
  | .accepted => BidStatus.accepted
  | .rejected => BidStatus.rejected

/-- `BidsService.createBid` (bids.service.ts lines 7-34): requires the gig
to exist and be active (404), the caller not to be the gig owner (400),
and no existing bid by this freelancer on this gig (400); on success
snapshots `clientId` from the gig owner and appends a new pending bid.
`newId` stands for the fresh Mongo `_id`. -/
def createBid (gigs : List Gig) (bids : List Bid) (input : BidInput)
    (freelancerId newId : Nat) : Except ApiError (List Bid × Bid) :=
  match gigs.find? (fun g => decide (g.id = input.gigId)) with
  | none => .error ⟨404, "Gig not found or is not active"⟩
  | some gig =>
    if gig.isActive = false then
      .error ⟨404, "Gig not found or is not active"⟩
    else if gig.freelancerId = freelancerId then
      .error ⟨400, "You cannot bid on your own gig"⟩
    else if (bids.find? (fun b =>
        decide (b.gigId = input.gigId ∧ b.freelancerId = freelancerId))).isSome then
      .error ⟨400, "You have already placed a bid on this gig"⟩
    else
      let bid : Bid :=
        { id := newId
          gigId := input.gigId
          freelancerId := freelancerId
          clientId := gig.freelancerId
          amount := input.amount
          deliveryTime := input.deliveryTime
          proposal := input.proposal
          status := BidStatus.pending
          attachments := input.attachments }
      .ok (bids ++ [bid], bid)

/-- `BidsService.updateBid` (bids.service.ts lines 116-130): `findOne` on
`{_id, freelancerId, status: pending}`, 404 when absent, otherwise
`findByIdAndUpdate(bidId, updateData)` applied to the store. -/
def updateBid (bids : List Bid) (bidId : Nat) (patch : BidPatch)
    (freelancerId : Nat) : Except ApiError (List Bid) :=
  match bids.find? (fun b =>
      decide (b.id = bidId ∧ b.freelancerId = freelancerId ∧
              b.status = BidStatus.pending)) with
  | none =>
      .error ⟨404, "Bid not found or cannot be updated (only pending bids can be updated)"⟩
  | some _ =>
      .ok (bids.map (fun b => if b.id = bidId then applyPatch b patch else b))

/-- `BidsService.updateBidStatus` (bids.service.ts lines 132-154):
`findOne` on `{_id, clientId, status: pending}`, 404 when absent; when
accepting, `updateMany({gigId, status: pending, _id ≠ bidId}, {status:
rejected})` first; finally `findByIdAndUpdate(bidId, { status })`. -/
def updateBidStatus (bids : List Bid) (bidId : Nat) (status : BidDecision)
    (clientId : Nat) : Except ApiError (List Bid) :=
  match bids.find? (fun b =>
      decide (b.id = bidId ∧ b.clientId = clientId ∧
              b.status = BidStatus.pending)) with
  | none =>
      .error ⟨404, "Bid not found or cannot be updated (only pending bids can be updated)"⟩
  | some bid =>
    let bids1 :=
      if status = BidDecision.accepted then
        bids.map (fun b =>
          if b.gigId = bid.gigId ∧ b.status = BidStatus.pending ∧ ¬ b.id = bidId then
            { b with status := BidStatus.rejected }
          else b)
      else bids
    .ok (bids1.map (fun b =>
      if b.id = bidId then { b with status := status.toStatus } else b))

/-- `BidsService.withdrawBid` (bids.service.ts lines 156-167): `findOne`
on `{_id, freelancerId, status: pending}`, 404 when absent, then
`findByIdAndUpdate(bidId, { status: withdrawn })`. -/
def withdrawBid (bids : List Bid) (bidId freelancerId : Nat) :
    Except ApiError (List Bid) :=
  match bids.find? (fun b =>
      decide (b.id = bidId ∧ b.freelancerId = freelancerId ∧
              b.status = BidStatus.pending)) with
  | none =>
      .error ⟨404, "Bid not found or cannot be withdrawn (only pending bids can be withdrawn)"⟩
  | some _ =>
      .ok (bids.map (fun b =>
        if b.id = bidId then { b with status := BidStatus.withdrawn } else b))

/-- `BidsController.updateBid` (bids.controller.ts lines 72-92): the body
is validated against `updateBidSchema`, so only the four content fields
can reach the service. -/
def updateBidCtrl (bids : List Bid) (bidId : Nat) (patch : ContentPatch)
    (freelancerId : Nat) : Except ApiError (List Bid) :=
  updateBid bids bidId patch.toBidPatch freelancerId

/-- The uniqueness constraint `bidSchema.index({gigId, freelancerId},
{unique})` (bids.model.ts lines 67-68): at most one bid per pair. -/
def onePerPair (bids : List Bid) : Prop :=
  ∀ g f, (bids.countP (fun b => decide (b.gigId = g ∧ b.freelancerId = f))) ≤ 1

/-- A refresh token as produced by `userSchema.methods.generateRefreshToken`
(user.model.ts lines 344-351): `jwt.sign({ userId }, refreshSecret,
{ expiresIn })`.  The signed JWT is embedded as its payload: the `userId`
claim plus the issued-at (`iat`) and expiry (`exp`) timestamps the signer
stamps on it; `jwt.verify`'s signature check admits exactly the tokens of
this shape. -/
structure RefreshTok where
  userId : Nat
  iat : Nat
  exp : Nat
deriving DecidableEq, Repr

/-- The slice of a user document the auth workflow reads and writes
(`IUser` in user.model.ts): `_id`, unique email, stored bcrypt password
hash, the account-active flag, last-login timestamp, the single stored
refresh token, and the password-reset hash/expiry pair. -/
structure UserRec where
  id : Nat
  email : String
  password : String
  isActive : Bool
  lastLogin : Option Nat
  refreshToken : Option RefreshTok
  passwordResetToken : Option String
  passwordResetExpires : Option Nat
deriving DecidableEq, Repr

/-- Mongo `passwordResetExpires: { $gt: new Date() }`: true when the
stored expiry exists and lies strictly in the future. -/
def expiresAfter : Option Nat → Nat → Bool
  | some e, now => decide (now < e)
  | none, _ => false

/-- `AuthService.register` (auth.service.ts lines 9-68): fails 400 when a
user with the email already exists; otherwise creates the user (password
bcrypt-hashed by the `pre('save')` hook, active by default), issues a
refresh token and persists it on the record.  `hashPw` is the bcrypt
collaborator, `newId` the fresh Mongo `_id`, `ttl` the configured refresh
lifetime. -/
def register (users : List UserRec) (hashPw : String → String)
    (email password : String) (newId now ttl : Nat) :
    Except ApiError (List UserRec × RefreshTok) :=
  if (users.find? (fun u => decide (u.email = email))).isSome then
    .error ⟨400, "User already exists with this email"⟩
  else
    let tok : RefreshTok := ⟨newId, now, now + ttl⟩
    let user : UserRec :=
      { id := newId
        email := email
        password := hashPw password
        isActive := true
        lastLogin := none
        refreshToken := some tok
        passwordResetToken := none
        passwordResetExpires := none }
    .ok (users ++ [user], tok)

/-- `AuthService.login` (auth.service.ts lines 70-124): `findOne({email,
isActive: true})`, generic 401 when absent; generic 401 again when
`comparePassword` fails; on success stamps `lastLogin`, issues a fresh
refresh token and overwrites the stored one.  `checkPw plain hash` is the
bcrypt compare collaborator. -/
def login (users : List UserRec) (checkPw : String → String → Bool)
    (email password : String) (now ttl : Nat) :
    Except ApiError (List UserRec × RefreshTok) :=
  match users.find? (fun u => decide (u.email = email ∧ u.isActive = true)) with
  | none => .error ⟨401, "Invalid email or password"⟩
  | some user =>
    if checkPw password user.password = false then
      .error ⟨401, "Invalid email or password"⟩
    else
      let tok : RefreshTok := ⟨user.id, now, now + ttl⟩
      .ok (users.map (fun v =>
        if v.id = user.id then
          { v with lastLogin := some now, refreshToken := some tok }
        else v), tok)

/-- The verification half of `AuthService.refreshToken` (auth.service.ts
lines 142-154): `jwt.verify` checks the signature and that the token is
not expired (a failure raises `JsonWebTokenError`, mapped to the same 401),
then `findOne({_id: decoded.userId, refreshToken, isActive: true})`
requires the presented token to equal the stored one. -/
def verifyRefreshToken (users : List UserRec) (tok : RefreshTok) (now : Nat) :
    Except ApiError UserRec :=
  if tok.exp ≤ now then
    .error ⟨401, "Invalid refresh token"⟩
  else
    match users.find? (fun u =>
        decide (u.id = tok.userId ∧ u.refreshToken = some tok ∧
                u.isActive = true)) with
    | none => .error ⟨401, "Invalid refresh token"⟩
    | some user => .ok user

/-- `AuthService.refreshToken` (auth.service.ts lines 140-172): verify the
presented token, then rotate: issue a fresh refresh token and store it in
place of the old one. -/
def refreshTokenOp (users : List UserRec) (tok : RefreshTok) (now ttl : Nat) :
    Except ApiError (List UserRec × RefreshTok) :=
  match verifyRefreshToken users tok now with
  | .error e => .error e
  | .ok user =>
    let newTok : RefreshTok := ⟨user.id, now, now + ttl⟩
    .ok (users.map (fun v =>
      if v.id = user.id then { v with refreshToken := some newTok } else v), newTok)

/-- `AuthService.forgotPassword` (auth.service.ts lines 228-252):
`findOne({email, isActive: true})`, 404 when absent; otherwise stores the
SHA-256 hash of a fresh random token with expiry `Date.now() + 10*60*1000`
and returns the plaintext token.  `hash` is the SHA-256 collaborator and
`resetToken` stands for the `crypto.randomBytes(32)` draw. -/
def forgotPassword (users : List UserRec) (hash : String → String)
    (email resetToken : String) (now : Nat) :
    Except ApiError (List UserRec × String) :=
  match users.find? (fun u => decide (u.email = email ∧ u.isActive = true)) with
  | none => .error ⟨404, "No user found with this email address"⟩
  | some user =>
    let hashedToken := hash resetToken
    .ok (users.map (fun v =>
      if v.id = user.id then
        { v with passwordResetToken := some hashedToken
                 passwordResetExpires := some (now + 10 * 60 * 1000) }
      else v), resetToken)

/-- `AuthService.resetPassword` (auth.service.ts lines 254-281): hashes
the incoming token, `findOne({passwordResetToken: hash, passwordResetExpires
> now, isActive: true})`, 400 when absent; otherwise sets the new password
hash and clears both reset fields in the same save. -/
def resetPassword (users : List UserRec) (hash hashPw : String → String)
    (token newPassword : String) (now : Nat) :
    Except ApiError (List UserRec) :=
  match users.find? (fun u =>
      decide (u.passwordResetToken = some (hash token) ∧
              expiresAfter u.passwordResetExpires now = true ∧
              u.isActive = true)) with
  | none => .error ⟨400, "Invalid or expired reset token"⟩
  | some user =>
    .ok (users.map (fun v =>
      if v.id = user.id then
        { v with password := hashPw newPassword
                 passwordResetToken := none
                 passwordResetExpires := none }
      else v))

/-!
## Theorems
-/

/-- C1: accepting a pending bid `B` on gig `G` through
`updateBidStatus(B, accepted)` by the snapshotted client sets `B` to
`accepted`, sets every other pending bid on `G` to `rejected`, and leaves
every bid on `G` that is not pending (already `accepted`, `rejected` or
`withdrawn`) unchanged; bids on other gigs are also untouched. -/
theorem updateBidStatus_accept_cascade
    (bids : List Bid) (bidId clientId : Nat) (bids2 : List Bid)
    (h : updateBidStatus bids bidId BidDecision.accepted clientId = .ok bids2) :
    ∃ b0, bids.find? (fun b => decide (b.id = bidId ∧ b.clientId = clientId ∧
        b.status = BidStatus.pending)) = some b0 ∧
      b0.id = bidId ∧ b0.clientId = clientId ∧ b0.status = BidStatus.pending ∧
      bids2.length = bids.length ∧
      ∀ i (hi : i < bids.length) (hj : i < bids2.length),
        ((bids.get ⟨i, hi⟩).id = bidId →
            bids2.get ⟨i, hj⟩ = { bids.get ⟨i, hi⟩ with status := BidStatus.accepted }) ∧
        (¬ (bids.get ⟨i, hi⟩).id = bidId → (bids.get ⟨i, hi⟩).gigId = b0.gigId →
            (bids.get ⟨i, hi⟩).status = BidStatus.pending →
            bids2.get ⟨i, hj⟩ = { bids.get ⟨i, hi⟩ with status := BidStatus.rejected }) ∧
        (¬ (bids.get ⟨i, hi⟩).id = bidId →
            (¬ (bids.get ⟨i, hi⟩).gigId = b0.gigId ∨
             ¬ (bids.get ⟨i, hi⟩).status = BidStatus.pending) →
            bids2.get ⟨i, hj⟩ = bids.get ⟨i, hi⟩) := by
  unfold updateBidStatus at h
  cases hf : bids.find? (fun b => decide (b.id = bidId ∧ b.clientId = clientId ∧
      b.status = BidStatus.pending)) with
  | none =>
    rw [hf] at h
    simp at h
  | some b0 =>
    rw [hf] at h
    have hp := List.find?_some hf
    simp only [decide_eq_true_eq] at hp
    obtain ⟨hid0, hcl0, hst0⟩ := hp
    simp only [reduceIte, Except.ok.injEq] at h
    subst h
    refine ⟨b0, rfl, hid0, hcl0, hst0, by simp, ?_⟩
    intro i hi hj
    simp only [List.get_eq_getElem, List.getElem_map]
    refine ⟨?_, ?_, ?_⟩
    · intro hbid
      simp [hbid, BidDecision.toStatus]
    · intro hbid hgig hpend
      simp [hbid, hgig, hpend]
    · intro hbid hother
      have hcond : ¬ (bids[i].gigId = b0.gigId ∧
          bids[i].status = BidStatus.pending ∧ ¬ bids[i].id = bidId) := by
        rcases hother with hg | hs
        · exact fun hc => hg hc.1
        · exact fun hc => hs hc.2.1
      rw [if_neg hcond, if_neg hbid]

/-- C1 witness: the spec's scenario — gig 1 has pending bids 1, 2, 3; the
client (user 10) accepts bid 2; bid 1 and bid 3 become rejected, bid 2
accepted; a withdrawn bid 4 on the same gig stays withdrawn. -/
theorem updateBidStatus_accept_cascade_witness :
    ∃ b0, (([⟨1, 1, 20, 10, 10, 7, "p1", BidStatus.pending, []⟩,
             ⟨2, 1, 21, 10, 11, 7, "p2", BidStatus.pending, []⟩,
             ⟨3, 1, 22, 10, 12, 7, "p3", BidStatus.pending, []⟩,
             ⟨4, 1, 23, 10, 13, 7, "p4", BidStatus.withdrawn, []⟩] : List Bid).find?
        (fun b => decide (b.id = 2 ∧ b.clientId = 10 ∧
          b.status = BidStatus.pending))) = some b0 ∧
      b0.id = 2 ∧ b0.clientId = 10 ∧ b0.status = BidStatus.pending ∧
      ([⟨1, 1, 20, 10, 10, 7, "p1", BidStatus.rejected, []⟩,
        ⟨2, 1, 21, 10, 11, 7, "p2", BidStatus.accepted, []⟩,
        ⟨3, 1, 22, 10, 12, 7, "p3", BidStatus.rejected, []⟩,
        ⟨4, 1, 23, 10, 13, 7, "p4", BidStatus.withdrawn, []⟩] : List Bid).length =
      ([⟨1, 1, 20, 10, 10, 7, "p1", BidStatus.pending, []⟩,
        ⟨2, 1, 21, 10, 11, 7, "p2", BidStatus.pending, []⟩,
        ⟨3, 1, 22, 10, 12, 7, "p3", BidStatus.pending, []⟩,
        ⟨4, 1, 23, 10, 13, 7, "p4", BidStatus.withdrawn, []⟩] : List Bid).length ∧
      ∀ i (hi : i < ([⟨1, 1, 20, 10, 10, 7, "p1", BidStatus.pending, []⟩,
             ⟨2, 1, 21, 10, 11, 7, "p2", BidStatus.pending, []⟩,
             ⟨3, 1, 22, 10, 12, 7, "p3", BidStatus.pending, []⟩,
             ⟨4, 1, 23, 10, 13, 7, "p4", BidStatus.withdrawn, []⟩] : List Bid).length)
          (hj : i < ([⟨1, 1, 20, 10, 10, 7, "p1", BidStatus.rejected, []⟩,
             ⟨2, 1, 21, 10, 11, 7, "p2", BidStatus.accepted, []⟩,
             ⟨3, 1, 22, 10, 12, 7, "p3", BidStatus.rejected, []⟩,
             ⟨4, 1, 23, 10, 13, 7, "p4", BidStatus.withdrawn, []⟩] : List Bid).length),
        ((([⟨1, 1, 20, 10, 10, 7, "p1", BidStatus.pending, []⟩,
             ⟨2, 1, 21, 10, 11, 7, "p2", BidStatus.pending, []⟩,
             ⟨3, 1, 22, 10, 12, 7, "p3", BidStatus.pending, []⟩,
             ⟨4, 1, 23, 10, 13, 7, "p4", BidStatus.withdrawn, []⟩] : List Bid).get ⟨i, hi⟩).id = 2 →
            ([⟨1, 1, 20, 10, 10, 7, "p1", BidStatus.rejected, []⟩,
              ⟨2, 1, 21, 10, 11, 7, "p2", BidStatus.accepted, []⟩,
              ⟨3, 1, 22, 10, 12, 7, "p3", BidStatus.rejected, []⟩,
              ⟨4, 1, 23, 10, 13, 7, "p4", BidStatus.withdrawn, []⟩] : List Bid).get ⟨i, hj⟩ =
              { ([⟨1, 1, 20, 10, 10, 7, "p1", BidStatus.pending, []⟩,
                  ⟨2, 1, 21, 10, 11, 7, "p2", BidStatus.pending, []⟩,
                  ⟨3, 1, 22, 10, 12, 7, "p3", BidStatus.pending, []⟩,
                  ⟨4, 1, 23, 10, 13, 7, "p4", BidStatus.withdrawn, []⟩] : List Bid).get ⟨i, hi⟩
                  with status := BidStatus.accepted }) ∧
        (¬ (([⟨1, 1, 20, 10, 10, 7, "p1", BidStatus.pending, []⟩,
             ⟨2, 1, 21, 10, 11, 7, "p2", BidStatus.pending, []⟩,
             ⟨3, 1, 22, 10, 12, 7, "p3", BidStatus.pending, []⟩,
             ⟨4, 1, 23, 10, 13, 7, "p4", BidStatus.withdrawn, []⟩] : List Bid).get ⟨i, hi⟩).id = 2 →
            (([⟨1, 1, 20, 10, 10, 7, "p1", BidStatus.pending, []⟩,
             ⟨2, 1, 21, 10, 11, 7, "p2", BidStatus.pending, []⟩,
             ⟨3, 1, 22, 10, 12, 7, "p3", BidStatus.pending, []⟩,
             ⟨4, 1, 23, 10, 13, 7, "p4", BidStatus.withdrawn, []⟩] : List Bid).get ⟨i, hi⟩).gigId = b0.gigId →
            (([⟨1, 1, 20, 10, 10, 7, "p1", BidStatus.pending, []⟩,
             ⟨2, 1, 21, 10, 11, 7, "p2", BidStatus.pending, []⟩,
             ⟨3, 1, 22, 10, 12, 7, "p3", BidStatus.pending, []⟩,
             ⟨4, 1, 23, 10, 13, 7, "p4", BidStatus.withdrawn, []⟩] : List Bid).get ⟨i, hi⟩).status = BidStatus.pending →
            ([⟨1, 1, 20, 10, 10, 7, "p1", BidStatus.rejected, []⟩,
              ⟨2, 1, 21, 10, 11, 7, "p2", BidStatus.accepted, []⟩,
              ⟨3, 1, 22, 10, 12, 7, "p3", BidStatus.rejected, []⟩,
              ⟨4, 1, 23, 10, 13, 7, "p4", BidStatus.withdrawn, []⟩] : List Bid).get ⟨i, hj⟩ =
              { ([⟨1, 1, 20, 10, 10, 7, "p1", BidStatus.pending, []⟩,
                  ⟨2, 1, 21, 10, 11, 7, "p2", BidStatus.pending, []⟩,
                  ⟨3, 1, 22, 10, 12, 7, "p3", BidStatus.pending, []⟩,
                  ⟨4, 1, 23, 10, 13, 7, "p4", BidStatus.withdrawn, []⟩] : List Bid).get ⟨i, hi⟩
                  with status := BidStatus.rejected }) ∧
        (¬ (([⟨1, 1, 20, 10, 10, 7, "p1", BidStatus.pending, []⟩,
             ⟨2, 1, 21, 10, 11, 7, "p2", BidStatus.pending, []⟩,
             ⟨3, 1, 22, 10, 12, 7, "p3", BidStatus.pending, []⟩,
             ⟨4, 1, 23, 10, 13, 7, "p4", BidStatus.withdrawn, []⟩] : List Bid).get ⟨i, hi⟩).id = 2 →
            (¬ (([⟨1, 1, 20, 10, 10, 7, "p1", BidStatus.pending, []⟩,
             ⟨2, 1, 21, 10, 11, 7, "p2", BidStatus.pending, []⟩,
             ⟨3, 1, 22, 10, 12, 7, "p3", BidStatus.pending, []⟩,
             ⟨4, 1, 23, 10, 13, 7, "p4", BidStatus.withdrawn, []⟩] : List Bid).get ⟨i, hi⟩).gigId = b0.gigId ∨
             ¬ (([⟨1, 1, 20, 10, 10, 7, "p1", BidStatus.pending, []⟩,
             ⟨2, 1, 21, 10, 11, 7, "p2", BidStatus.pending, []⟩,
             ⟨3, 1, 22, 10, 12, 7, "p3", BidStatus.pending, []⟩,
             ⟨4, 1, 23, 10, 13, 7, "p4", BidStatus.withdrawn, []⟩] : List Bid).get ⟨i, hi⟩).status = BidStatus.pending) →
            ([⟨1, 1, 20, 10, 10, 7, "p1", BidStatus.rejected, []⟩,
              ⟨2, 1, 21, 10, 11, 7, "p2", BidStatus.accepted, []⟩,
              ⟨3, 1, 22, 10, 12, 7, "p3", BidStatus.rejected, []⟩,
              ⟨4, 1, 23, 10, 13, 7, "p4", BidStatus.withdrawn, []⟩] : List Bid).get ⟨i, hj⟩ =
            ([⟨1, 1, 20, 10, 10, 7, "p1", BidStatus.pending, []⟩,
             ⟨2, 1, 21, 10, 11, 7, "p2", BidStatus.pending, []⟩,
             ⟨3, 1, 22, 10, 12, 7, "p3", BidStatus.pending, []⟩,
             ⟨4, 1, 23, 10, 13, 7, "p4", BidStatus.withdrawn, []⟩] : List Bid).get ⟨i, hi⟩) :=
  updateBidStatus_accept_cascade
    [⟨1, 1, 20, 10, 10, 7, "p1", BidStatus.pending, []⟩,
     ⟨2, 1, 21, 10, 11, 7, "p2", BidStatus.pending, []⟩,
     ⟨3, 1, 22, 10, 12, 7, "p3", BidStatus.pending, []⟩,
     ⟨4, 1, 23, 10, 13, 7, "p4", BidStatus.withdrawn, []⟩] 2 10
    [⟨1, 1, 20, 10, 10, 7, "p1", BidStatus.rejected, []⟩,
     ⟨2, 1, 21, 10, 11, 7, "p2", BidStatus.accepted, []⟩,
     ⟨3, 1, 22, 10, 12, 7, "p3", BidStatus.rejected, []⟩,
     ⟨4, 1, 23, 10, 13, 7, "p4", BidStatus.withdrawn, []⟩] (by rfl)

/-- Helper: in a store with Mongo-unique `_id`s, an element of a mapped
store with the id of `b` is exactly `f b`, provided `f` preserves ids. -/
theorem mem_map_id_det (bids : List Bid) (hnd : (bids.map Bid.id).Nodup)
    (f : Bid → Bid) (hfid : ∀ a, (f a).id = a.id)
    (b : Bid) (hb : b ∈ bids) (b2 : Bid) (hb2 : b2 ∈ bids.map f)
    (hid : b2.id = b.id) : b2 = f b := by
  obtain ⟨a, ha, hfa⟩ := List.mem_map.mp hb2
  have haid : Bid.id a = Bid.id b := by
    have := hfid a
    rw [hfa] at this
    rw [← this, hid]
  have hab : a = b := List.inj_on_of_nodup_map hnd ha hb haid
  rw [← hfa, hab]

/-- C2: bid statuses are terminal once out of `pending`.  In a store with
unique Mongo ids, any bid whose status is `accepted`, `rejected` or
`withdrawn` is left completely unchanged by every successful `updateBid`,
`updateBidStatus` (including its accept cascade) and `withdrawBid`; only
pending bids can transition. -/
theorem terminal_bid_status_frozen
    (bids : List Bid) (hnd : (bids.map Bid.id).Nodup)
    (b : Bid) (hb : b ∈ bids) (hterm : ¬ b.status = BidStatus.pending) :
    (∀ bidId patch fid bids2, updateBid bids bidId patch fid = .ok bids2 →
        ∀ b2 ∈ bids2, b2.id = b.id → b2 = b) ∧
    (∀ bidId st cid bids2, updateBidStatus bids bidId st cid = .ok bids2 →
        ∀ b2 ∈ bids2, b2.id = b.id → b2 = b) ∧
    (∀ bidId fid bids2, withdrawBid bids bidId fid = .ok bids2 →
        ∀ b2 ∈ bids2, b2.id = b.id → b2 = b) := by
  refine ⟨?_, ?_, ?_⟩
  · intro bidId patch fid bids2 h b2 hb2 hid
    unfold updateBid at h
    cases hf : bids.find? (fun x => decide (x.id = bidId ∧ x.freelancerId = fid ∧
        x.status = BidStatus.pending)) with
    | none => rw [hf] at h; simp at h
    | some b0 =>
      rw [hf] at h
      have hp := List.find?_some hf
      simp only [decide_eq_true_eq] at hp
      obtain ⟨hid0, _, hst0⟩ := hp
      have hbne : ¬ b.id = bidId := by
        intro he
        have hbb0 : b = b0 := List.inj_on_of_nodup_map hnd hb
          (List.mem_of_find?_eq_some hf) (by show b.id = b0.id; rw [he, hid0])
        exact hterm (by rw [hbb0, hst0])
      simp only [Except.ok.injEq] at h
      subst h
      have := mem_map_id_det bids hnd
        (fun x => if x.id = bidId then applyPatch x patch else x)
        (fun a => by by_cases hc : a.id = bidId <;> simp [hc, applyPatch])
        b hb b2 hb2 hid
      rw [this]
      simp [hbne]
  · intro bidId st cid bids2 h b2 hb2 hid
    unfold updateBidStatus at h
    cases hf : bids.find? (fun x => decide (x.id = bidId ∧ x.clientId = cid ∧
        x.status = BidStatus.pending)) with
    | none => rw [hf] at h; simp at h
    | some b0 =>
      rw [hf] at h
      have hp := List.find?_some hf
      simp only [decide_eq_true_eq] at hp
      obtain ⟨hid0, _, hst0⟩ := hp
      have hbne : ¬ b.id = bidId := by
        intro he
        have hbb0 : b = b0 := List.inj_on_of_nodup_map hnd hb
          (List.mem_of_find?_eq_some hf) (by show b.id = b0.id; rw [he, hid0])
        exact hterm (by rw [hbb0, hst0])
      simp only [Except.ok.injEq] at h
      cases st with
      | accepted =>
        simp only [reduceIte, List.map_map] at h
        subst h
        have := mem_map_id_det bids hnd
          ((fun x => if x.id = bidId then { x with status := BidDecision.toStatus BidDecision.accepted } else x) ∘
           (fun x => if x.gigId = b0.gigId ∧ x.status = BidStatus.pending ∧ ¬ x.id = bidId then
              { x with status := BidStatus.rejected } else x))
          (fun a => by
            have h2 : ∀ x : Bid, (if x.gigId = b0.gigId ∧ x.status = BidStatus.pending ∧
                ¬ x.id = bidId then { x with status := BidStatus.rejected } else x).id = x.id := by
              intro x; split <;> rfl
            have h1 : ∀ x : Bid, (if x.id = bidId then
                { x with status := BidDecision.toStatus BidDecision.accepted } else x).id = x.id := by
              intro x; split <;> rfl
            simp only [Function.comp_apply]
            rw [h1, h2])
          b hb b2 hb2 hid
        have hcnd : ¬ (b.gigId = b0.gigId ∧ b.status = BidStatus.pending ∧ ¬ b.id = bidId) :=
          fun hc => hterm hc.2.1
        rw [this]
        simp only [Function.comp_apply]
        rw [if_neg hcnd, if_neg hbne]
      | rejected =>
        rw [if_neg (by decide : ¬ (BidDecision.rejected = BidDecision.accepted))] at h
        subst h
        have := mem_map_id_det bids hnd
          (fun x => if x.id = bidId then { x with status := BidDecision.toStatus BidDecision.rejected } else x)
          (fun a => by by_cases hc : a.id = bidId <;> simp [hc])
          b hb b2 hb2 hid
        rw [this]
        simp [hbne]
  · intro bidId fid bids2 h b2 hb2 hid
    unfold withdrawBid at h
    cases hf : bids.find? (fun x => decide (x.id = bidId ∧ x.freelancerId = fid ∧
        x.status = BidStatus.pending)) with
    | none => rw [hf] at h; simp at h
    | some b0 =>
      rw [hf] at h
      have hp := List.find?_some hf
      simp only [decide_eq_true_eq] at hp
      obtain ⟨hid0, _, hst0⟩ := hp
      have hbne : ¬ b.id = bidId := by
        intro he
        have hbb0 : b = b0 := List.inj_on_of_nodup_map hnd hb
          (List.mem_of_find?_eq_some hf) (by show b.id = b0.id; rw [he, hid0])
        exact hterm (by rw [hbb0, hst0])
      simp only [Except.ok.injEq] at h
      subst h
      have := mem_map_id_det bids hnd
        (fun x => if x.id = bidId then { x with status := BidStatus.withdrawn } else x)
        (fun a => by by_cases hc : a.id = bidId <;> simp [hc])
        b hb b2 hb2 hid
      rw [this]
      simp [hbne]

/-- C2 witness: in a store containing pending bid 1 and accepted bid 2
(unique ids), bid 2 is untouched by every successful bid operation. -/
theorem terminal_bid_status_frozen_witness :
    (∀ bidId patch fid bids2,
        updateBid [⟨1, 1, 20, 10, 10, 7, "p1", BidStatus.pending, []⟩,
                   ⟨2, 1, 21, 10, 11, 7, "p2", BidStatus.accepted, []⟩]
          bidId patch fid = .ok bids2 →
        ∀ b2 ∈ bids2, b2.id = Bid.id ⟨2, 1, 21, 10, 11, 7, "p2", BidStatus.accepted, []⟩ →
          b2 = ⟨2, 1, 21, 10, 11, 7, "p2", BidStatus.accepted, []⟩) ∧
    (∀ bidId st cid bids2,
        updateBidStatus [⟨1, 1, 20, 10, 10, 7, "p1", BidStatus.pending, []⟩,
                         ⟨2, 1, 21, 10, 11, 7, "p2", BidStatus.accepted, []⟩]
          bidId st cid = .ok bids2 →
        ∀ b2 ∈ bids2, b2.id = Bid.id ⟨2, 1, 21, 10, 11, 7, "p2", BidStatus.accepted, []⟩ →
          b2 = ⟨2, 1, 21, 10, 11, 7, "p2", BidStatus.accepted, []⟩) ∧
    (∀ bidId fid bids2,
        withdrawBid [⟨1, 1, 20, 10, 10, 7, "p1", BidStatus.pending, []⟩,
                     ⟨2, 1, 21, 10, 11, 7, "p2", BidStatus.accepted, []⟩]
          bidId fid = .ok bids2 →
        ∀ b2 ∈ bids2, b2.id = Bid.id ⟨2, 1, 21, 10, 11, 7, "p2", BidStatus.accepted, []⟩ →
          b2 = ⟨2, 1, 21, 10, 11, 7, "p2", BidStatus.accepted, []⟩) :=
  terminal_bid_status_frozen
    [⟨1, 1, 20, 10, 10, 7, "p1", BidStatus.pending, []⟩,
     ⟨2, 1, 21, 10, 11, 7, "p2", BidStatus.accepted, []⟩]
    (by decide)
    ⟨2, 1, 21, 10, 11, 7, "p2", BidStatus.accepted, []⟩
    (by simp) (by decide)

/-- C3 counterexample: the second `createBid` with the same
(gigId, freelancerId) pair fails, but with `ApiError(400, ...)` — the
spec taxonomy's `BadRequest` — not with `Conflict` (409): gig 1 is owned
by user 10, freelancer 20 bids once successfully, and the repeat bid is
rejected with status code 400. -/
theorem createBid_duplicate_not_conflict_cex :
    createBid [⟨1, 10, true⟩] [] ⟨1, 50, 7, "p", []⟩ 20 100 =
      .ok ([⟨100, 1, 20, 10, 50, 7, "p", BidStatus.pending, []⟩],
           ⟨100, 1, 20, 10, 50, 7, "p", BidStatus.pending, []⟩) ∧
    createBid [⟨1, 10, true⟩]
      [⟨100, 1, 20, 10, 50, 7, "p", BidStatus.pending, []⟩]
      ⟨1, 60, 7, "q", []⟩ 20 101 =
      .error ⟨400, "You have already placed a bid on this gig"⟩ ∧
    ¬ (400 = conflictStatusCode) :=
  ⟨by rfl, by rfl, by decide⟩

/-- C3 (amended): creating a bid twice with the same (gigId, freelancerId)
pair succeeds at most the first time — the second create fails with
`BadRequest` (`ApiError(400, "You have already placed a bid on this gig")`,
not `Conflict`/409) — and a store satisfying the one-bid-per-pair
uniqueness constraint still satisfies it after any successful create. -/
theorem createBid_duplicate_pair
    (gigs : List Gig) (bids : List Bid) (input : BidInput) (fid nid : Nat) :
    ((∃ b ∈ bids, b.gigId = input.gigId ∧ b.freelancerId = fid) →
      ∀ g, gigs.find? (fun g => decide (g.id = input.gigId)) = some g →
        g.isActive = true → ¬ g.freelancerId = fid →
        createBid gigs bids input fid nid =
          .error ⟨400, "You have already placed a bid on this gig"⟩) ∧
    (onePerPair bids →
      ∀ bids2 bid, createBid gigs bids input fid nid = .ok (bids2, bid) →
        onePerPair bids2) := by
  constructor
  · intro hdup g hg hact hown
    simp only [createBid, hg, hact, hown, Bool.true_eq_false, if_false, if_neg hown,
      List.find?_isSome]
    rw [if_pos]
    obtain ⟨b, hb, h1, h2⟩ := hdup
    exact ⟨b, hb, by simp [h1, h2]⟩
  · intro hOne bids2 bid h
    unfold createBid at h
    cases hg : gigs.find? (fun g => decide (g.id = input.gigId)) with
    | none => rw [hg] at h; simp at h
    | some g =>
      rw [hg] at h
      by_cases h1 : g.isActive = false
      · simp only [if_pos h1] at h
        exact absurd h (by simp)
      · simp only [if_neg h1] at h
        by_cases h2 : g.freelancerId = fid
        · simp only [if_pos h2] at h
          exact absurd h (by simp)
        · simp only [if_neg h2] at h
          by_cases h3 : (bids.find? (fun b =>
              decide (b.gigId = input.gigId ∧ b.freelancerId = fid))).isSome
          · simp only [if_pos h3] at h
            exact absurd h (by simp)
          · simp only [if_neg h3] at h
            simp only [Except.ok.injEq, Prod.mk.injEq] at h
            obtain ⟨hb2, _⟩ := h
            subst hb2
            intro gg ff
            rw [List.countP_append]
            by_cases hpair : gg = input.gigId ∧ ff = fid
            · have hnone : bids.find? (fun b =>
                  decide (b.gigId = input.gigId ∧ b.freelancerId = fid)) = none :=
                Option.not_isSome_iff_eq_none.mp h3
              have hzero : bids.countP (fun b =>
                  decide (b.gigId = gg ∧ b.freelancerId = ff)) = 0 := by
                rw [List.countP_eq_zero]
                intro a ha
                have := List.find?_eq_none.mp hnone a ha
                simp only [decide_eq_true_eq] at this ⊢
                rw [hpair.1, hpair.2]
                exact this
              rw [hzero]
              simp only [Nat.zero_add]
              exact List.countP_le_length _
            · have hzero : List.countP (fun b =>
                  decide (b.gigId = gg ∧ b.freelancerId = ff))
                  [({ id := nid, gigId := input.gigId, freelancerId := fid,
                      clientId := g.freelancerId, amount := input.amount,
                      deliveryTime := input.deliveryTime, proposal := input.proposal,
                      status := BidStatus.pending, attachments := input.attachments } : Bid)] = 0 := by
                rw [List.countP_eq_zero]
                intro a ha
                simp only [List.mem_singleton] at ha
                subst ha
                simp only [decide_eq_true_eq]
                intro hc
                exact hpair ⟨hc.1.symm, hc.2.symm⟩
              rw [hzero]
              exact hOne gg ff

/-- C3 witness: with gig 1 owned by user 10 and an existing bid by
freelancer 20, a repeated create by 20 fails with the 400 duplicate error,
and the one-bid-per-pair constraint is preserved by successful creates
from the singleton store. -/
theorem createBid_duplicate_pair_witness :
    createBid [⟨1, 10, true⟩]
      [⟨100, 1, 20, 10, 50, 7, "p", BidStatus.pending, []⟩]
      ⟨1, 60, 7, "q", []⟩ 20 101 =
      .error ⟨400, "You have already placed a bid on this gig"⟩ ∧
    onePerPair [⟨100, 1, 20, 10, 50, 7, "p", BidStatus.pending, []⟩,
                ⟨101, 1, 21, 10, 60, 7, "q", BidStatus.pending, []⟩] := by
  constructor
  · exact (createBid_duplicate_pair [⟨1, 10, true⟩]
      [⟨100, 1, 20, 10, 50, 7, "p", BidStatus.pending, []⟩]
      ⟨1, 60, 7, "q", []⟩ 20 101).1
      ⟨⟨100, 1, 20, 10, 50, 7, "p", BidStatus.pending, []⟩, by simp, by simp⟩
      ⟨1, 10, true⟩ (by rfl) (by rfl) (by decide)
  · exact (createBid_duplicate_pair [⟨1, 10, true⟩]
      [⟨100, 1, 20, 10, 50, 7, "p", BidStatus.pending, []⟩]
      ⟨1, 60, 7, "q", []⟩ 21 101).2
      (by intro g f; exact Nat.le_trans (List.countP_le_length _) (by simp))
      [⟨100, 1, 20, 10, 50, 7, "p", BidStatus.pending, []⟩,
       ⟨101, 1, 21, 10, 60, 7, "q", BidStatus.pending, []⟩]
      ⟨101, 1, 21, 10, 60, 7, "q", BidStatus.pending, []⟩ (by rfl)

/-- C7 counterexample: registering the same email twice fails the second
time, but with `ApiError(400, ...)` — the taxonomy's `BadRequest` — not
with `Conflict` (409). -/
theorem register_duplicate_not_conflict_cex :
    register [] (fun s => s) "a@b.com" "pw" 1 0 100 =
      .ok ([⟨1, "a@b.com", "pw", true, none, some ⟨1, 0, 100⟩, none, none⟩],
           ⟨1, 0, 100⟩) ∧
    register [⟨1, "a@b.com", "pw", true, none, some ⟨1, 0, 100⟩, none, none⟩]
        (fun s => s) "a@b.com" "pw2" 2 5 100 =
      .error ⟨400, "User already exists with this email"⟩ ∧
    ¬ (400 = conflictStatusCode) :=
  ⟨by rfl, by rfl, by decide⟩

/-- C7 (amended): registering with an email that already belongs to an
existing user fails with `BadRequest` (`ApiError(400, "User already exists
with this email")`, not `Conflict`/409) and creates no user; a successful
registration implies the email was free, and repeating it on the resulting
store always fails with the same 400 error. -/
theorem register_duplicate_email
    (users : List UserRec) (hashPw : String → String) (email pw : String)
    (newId now ttl : Nat) :
    ((∃ u ∈ users, u.email = email) →
      register users hashPw email pw newId now ttl =
        .error ⟨400, "User already exists with this email"⟩) ∧
    (∀ users2 tok, register users hashPw email pw newId now ttl = .ok (users2, tok) →
      (∀ u ∈ users, ¬ u.email = email) ∧
      ∀ pw2 newId2 now2 ttl2, register users2 hashPw email pw2 newId2 now2 ttl2 =
        .error ⟨400, "User already exists with this email"⟩) := by
  constructor
  · intro hdup
    unfold register
    rw [if_pos]
    rw [List.find?_isSome]
    obtain ⟨u, hu, he⟩ := hdup
    exact ⟨u, hu, by simp [he]⟩
  · intro users2 tok h
    unfold register at h
    by_cases hc : (users.find? (fun u => decide (u.email = email))).isSome
    · rw [if_pos hc] at h
      exact absurd h (by simp)
    · rw [if_neg hc] at h
      simp only [Except.ok.injEq, Prod.mk.injEq] at h
      obtain ⟨hu2, _⟩ := h
      subst hu2
      constructor
      · intro u hu he
        apply hc
        rw [List.find?_isSome]
        exact ⟨u, hu, by simp [he]⟩
      · intro pw2 newId2 now2 ttl2
        unfold register
        rw [if_pos]
        rw [List.find?_isSome]
        refine ⟨{ id := newId, email := email, password := hashPw pw,
                  isActive := true, lastLogin := none,
                  refreshToken := some ⟨newId, now, now + ttl⟩,
                  passwordResetToken := none, passwordResetExpires := none },
                by simp, by simp⟩

/-- C7 witness: a store already holding a user with email a@b.com rejects
a new registration with that email with the 400 duplicate error. -/
theorem register_duplicate_email_witness :
    register [⟨1, "a@b.com", "pw", true, none, none, none, none⟩]
        (fun s => s) "a@b.com" "pw2" 2 5 100 =
      .error ⟨400, "User already exists with this email"⟩ :=
  (register_duplicate_email [⟨1, "a@b.com", "pw", true, none, none, none, none⟩]
      (fun s => s) "a@b.com" "pw2" 2 5 100).1
    ⟨⟨1, "a@b.com", "pw", true, none, none, none, none⟩, by simp, by rfl⟩

/-- C8: `createBid` by the gig's own freelancer fails with
`ApiError(400, "You cannot bid on your own gig")` and creates nothing,
and every successfully created bid has `freelancerId` different from the
gig owner — hence also from its snapshotted `clientId`, so a bid on one's
own gig can never exist. -/
theorem createBid_own_gig
    (gigs : List Gig) (bids : List Bid) (input : BidInput) (fid nid : Nat) :
    (∀ g, gigs.find? (fun g => decide (g.id = input.gigId)) = some g →
        g.isActive = true → g.freelancerId = fid →
        createBid gigs bids input fid nid =
          .error ⟨400, "You cannot bid on your own gig"⟩) ∧
    (∀ bids2 bid, createBid gigs bids input fid nid = .ok (bids2, bid) →
        ∃ g, gigs.find? (fun g => decide (g.id = input.gigId)) = some g ∧
          bid.freelancerId = fid ∧ bid.clientId = g.freelancerId ∧
          ¬ bid.freelancerId = g.freelancerId ∧
          ¬ bid.freelancerId = bid.clientId) := by
  constructor
  · intro g hg hact howner
    simp [createBid, hg, hact, howner]
  · intro bids2 bid h
    unfold createBid at h
    cases hg : gigs.find? (fun g => decide (g.id = input.gigId)) with
    | none => rw [hg] at h; simp at h
    | some g =>
      rw [hg] at h
      by_cases h1 : g.isActive = false
      · simp only [if_pos h1] at h
        exact absurd h (by simp)
      · simp only [if_neg h1] at h
        by_cases h2 : g.freelancerId = fid
        · simp only [if_pos h2] at h
          exact absurd h (by simp)
        · simp only [if_neg h2] at h
          by_cases h3 : (bids.find? (fun b =>
              decide (b.gigId = input.gigId ∧ b.freelancerId = fid))).isSome
          · simp only [if_pos h3] at h
            exact absurd h (by simp)
          · simp only [if_neg h3] at h
            simp only [Except.ok.injEq, Prod.mk.injEq] at h
            obtain ⟨_, hbid⟩ := h
            subst hbid
            exact ⟨g, rfl, rfl, rfl, fun he => h2 he.symm, fun he => h2 he.symm⟩

/-- C8 witness: freelancer 10 owns gig 1; their own bid attempt on gig 1
fails with the 400 own-gig error. -/
theorem createBid_own_gig_witness :
    createBid [⟨1, 10, true⟩] [] ⟨1, 50, 7, "p", []⟩ 10 100 =
      .error ⟨400, "You cannot bid on your own gig"⟩ :=
  (createBid_own_gig [⟨1, 10, true⟩] [] ⟨1, 50, 7, "p", []⟩ 10 100).1
    ⟨1, 10, true⟩ (by rfl) (by rfl) (by rfl)

/-- C10: through the public controller interface, a successful `updateBid`
leaves every bid's `_id`, `status`, `gigId`, `freelancerId` and `clientId`
unchanged — the validated patch can only touch `amount`, `deliveryTime`,
`proposal` and `attachments`. -/
theorem updateBidCtrl_frame
    (bids : List Bid) (bidId : Nat) (p : ContentPatch) (fid : Nat)
    (bids2 : List Bid) (h : updateBidCtrl bids bidId p fid = .ok bids2) :
    bids2.length = bids.length ∧
    ∀ i (hi : i < bids.length) (hj : i < bids2.length),
      (bids2.get ⟨i, hj⟩).id = (bids.get ⟨i, hi⟩).id ∧
      (bids2.get ⟨i, hj⟩).status = (bids.get ⟨i, hi⟩).status ∧
      (bids2.get ⟨i, hj⟩).gigId = (bids.get ⟨i, hi⟩).gigId ∧
      (bids2.get ⟨i, hj⟩).freelancerId = (bids.get ⟨i, hi⟩).freelancerId ∧
      (bids2.get ⟨i, hj⟩).clientId = (bids.get ⟨i, hi⟩).clientId := by
  unfold updateBidCtrl updateBid at h
  cases hf : bids.find? (fun b => decide (b.id = bidId ∧ b.freelancerId = fid ∧
      b.status = BidStatus.pending)) with
  | none => rw [hf] at h; simp at h
  | some b0 =>
    rw [hf] at h
    simp only [Except.ok.injEq] at h
    subst h
    refine ⟨by simp, ?_⟩
    intro i hi hj
    simp only [List.get_eq_getElem, List.getElem_map]
    by_cases hc : bids[i].id = bidId <;>
      simp [hc, applyPatch, ContentPatch.toBidPatch]

/-- C10 witness: changing the amount of pending bid 1 through the
controller keeps its id, status, gigId, freelancerId and clientId. -/
theorem updateBidCtrl_frame_witness :
    ([⟨1, 1, 20, 10, 99, 7, "p", BidStatus.pending, []⟩] : List Bid).length =
      ([⟨1, 1, 20, 10, 50, 7, "p", BidStatus.pending, []⟩] : List Bid).length ∧
    ∀ i (hi : i < ([⟨1, 1, 20, 10, 50, 7, "p", BidStatus.pending, []⟩] : List Bid).length)
        (hj : i < ([⟨1, 1, 20, 10, 99, 7, "p", BidStatus.pending, []⟩] : List Bid).length),
      (([⟨1, 1, 20, 10, 99, 7, "p", BidStatus.pending, []⟩] : List Bid).get ⟨i, hj⟩).id =
        (([⟨1, 1, 20, 10, 50, 7, "p", BidStatus.pending, []⟩] : List Bid).get ⟨i, hi⟩).id ∧
      (([⟨1, 1, 20, 10, 99, 7, "p", BidStatus.pending, []⟩] : List Bid).get ⟨i, hj⟩).status =
        (([⟨1, 1, 20, 10, 50, 7, "p", BidStatus.pending, []⟩] : List Bid).get ⟨i, hi⟩).status ∧
      (([⟨1, 1, 20, 10, 99, 7, "p", BidStatus.pending, []⟩] : List Bid).get ⟨i, hj⟩).gigId =
        (([⟨1, 1, 20, 10, 50, 7, "p", BidStatus.pending, []⟩] : List Bid).get ⟨i, hi⟩).gigId ∧
      (([⟨1, 1, 20, 10, 99, 7, "p", BidStatus.pending, []⟩] : List Bid).get ⟨i, hj⟩).freelancerId =
        (([⟨1, 1, 20, 10, 50, 7, "p", BidStatus.pending, []⟩] : List Bid).get ⟨i, hi⟩).freelancerId ∧
      (([⟨1, 1, 20, 10, 99, 7, "p", BidStatus.pending, []⟩] : List Bid).get ⟨i, hj⟩).clientId =
        (([⟨1, 1, 20, 10, 50, 7, "p", BidStatus.pending, []⟩] : List Bid).get ⟨i, hi⟩).clientId :=
  updateBidCtrl_frame [⟨1, 1, 20, 10, 50, 7, "p", BidStatus.pending, []⟩] 1
    ⟨some 99, none, none, none⟩ 20
    [⟨1, 1, 20, 10, 99, 7, "p", BidStatus.pending, []⟩] (by rfl)

/-- C5: login failures are indistinguishable — whether no active user has
the email or the password check fails for the found user, `login` returns
the very same `ApiError(401, "Invalid email or password")`, kind and
message character-for-character identical. -/
theorem login_enumeration_resistance
    (users : List UserRec) (checkPw : String → String → Bool)
    (email pw : String) (now ttl : Nat)
    (h : users.find? (fun u => decide (u.email = email ∧ u.isActive = true)) = none ∨
         ∃ u, users.find? (fun u => decide (u.email = email ∧ u.isActive = true)) = some u ∧
           checkPw pw u.password = false) :
    login users checkPw email pw now ttl =
      .error ⟨401, "Invalid email or password"⟩ := by
  unfold login
  rcases h with hn | ⟨u, hu, hpw⟩
  · rw [hn]
  · rw [hu]
    simp [hpw]

/-- C5 witness: against a store holding active user a@b.com with stored
hash h, an unknown email and a wrong password produce the identical
401 error value. -/
theorem login_enumeration_resistance_witness :
    login [⟨1, "a@b.com", "h", true, none, none, none, none⟩]
        (fun p q => decide (p = q)) "x@y.com" "pw" 0 100 =
      .error ⟨401, "Invalid email or password"⟩ ∧
    login [⟨1, "a@b.com", "h", true, none, none, none, none⟩]
        (fun p q => decide (p = q)) "wrong" "h" 0 100 =
      .error ⟨401, "Invalid email or password"⟩ :=
  ⟨login_enumeration_resistance _ _ _ _ _ _ (Or.inl (by rfl)),
   login_enumeration_resistance _ _ _ _ _ _ (Or.inl (by rfl))⟩

/-- Helper for token rotation: once every user with the id of `u` stores
`newTok` and every other user is untouched, the old token — which only the
user with its own `userId` could ever satisfy — no longer verifies. -/
theorem rotated_store_rejects_old
    (users : List UserRec) (u : UserRec) (oldTok newTok : RefreshTok)
    (huid : oldTok.userId = newTok.userId) (hne : ¬ oldTok = newTok)
    (hnid : newTok.userId = u.id) (f : UserRec → UserRec)
    (hf : ∀ v, (v.id = u.id → (f v).refreshToken = some newTok) ∧
               (¬ v.id = u.id → f v = v)) :
    ∀ now2, verifyRefreshToken (users.map f) oldTok now2 =
      .error ⟨401, "Invalid refresh token"⟩ := by
  intro now2
  unfold verifyRefreshToken
  by_cases hexp : oldTok.exp ≤ now2
  · rw [if_pos hexp]
  · rw [if_neg hexp]
    have hfind : (users.map f).find? (fun v => decide (v.id = oldTok.userId ∧
        v.refreshToken = some oldTok ∧ v.isActive = true)) = none := by
      rw [List.find?_eq_none]
      intro x hx
      obtain ⟨a, ha, hfa⟩ := List.mem_map.mp hx
      simp only [decide_eq_true_eq]
      intro hP
      obtain ⟨hxid, hxtok, _⟩ := hP
      by_cases hc : a.id = u.id
      · have hnewtok : x.refreshToken = some newTok := by
          rw [← hfa]
          exact (hf a).1 hc
        rw [hxtok] at hnewtok
        exact hne (Option.some.inj hnewtok)
      · have hxa : a = x := (hf a).2 hc ▸ hfa
        subst hxa
        exact hc (hxid.trans (huid.trans hnid))
    rw [hfind]

/-- C4: issuing a new refresh token for a user — by a second `login` or by
`refreshToken` rotation — invalidates any previously issued token for that
user: once the stored value has been replaced by a different token,
verifying the old one fails with `ApiError(401, "Invalid refresh token")`
at every instant, because verification requires the presented token to
equal the stored one. -/
theorem refresh_token_rotation
    (users : List UserRec) (oldTok : RefreshTok) :
    (∀ checkPw email pw now ttl users2 newTok,
        login users checkPw email pw now ttl = .ok (users2, newTok) →
        oldTok.userId = newTok.userId → ¬ oldTok = newTok →
        ∀ now2, verifyRefreshToken users2 oldTok now2 =
          .error ⟨401, "Invalid refresh token"⟩) ∧
    (∀ tok now ttl users2 newTok,
        refreshTokenOp users tok now ttl = .ok (users2, newTok) →
        oldTok.userId = newTok.userId → ¬ oldTok = newTok →
        ∀ now2, verifyRefreshToken users2 oldTok now2 =
          .error ⟨401, "Invalid refresh token"⟩) := by
  constructor
  · intro checkPw email pw now ttl users2 newTok h huid hne now2
    unfold login at h
    cases hf : users.find? (fun u => decide (u.email = email ∧ u.isActive = true)) with
    | none =>
      rw [hf] at h
      exact absurd h (by simp)
    | some u =>
      rw [hf] at h
      by_cases hpw : checkPw pw u.password = false
      · simp only [if_pos hpw] at h
        exact absurd h (by simp)
      · simp only [if_neg hpw] at h
        simp only [Except.ok.injEq, Prod.mk.injEq] at h
        obtain ⟨hu2, htok⟩ := h
        subst hu2
        exact rotated_store_rejects_old users u oldTok newTok huid hne
          (by rw [← htok]) _
          (fun v => ⟨fun hv => by simp [hv, ← htok], fun hv => by simp [hv]⟩) now2
  · intro tok now ttl users2 newTok h huid hne now2
    unfold refreshTokenOp at h
    cases hv : verifyRefreshToken users tok now with
    | error e =>
      rw [hv] at h
      exact absurd h (by simp)
    | ok u =>
      rw [hv] at h
      simp only [Except.ok.injEq, Prod.mk.injEq] at h
      obtain ⟨hu2, htok⟩ := h
      subst hu2
      exact rotated_store_rejects_old users u oldTok newTok huid hne
        (by rw [← htok]) _
        (fun v => ⟨fun hv2 => by simp [hv2, ← htok], fun hv2 => by simp [hv2]⟩) now2

/-- C4 witness: user 1 holds the refresh token issued at time 0; after a
fresh login at time 5 the old token no longer verifies (checked at
time 6). -/
theorem refresh_token_rotation_witness :
    verifyRefreshToken
        [⟨1, "a@b.com", "h", true, some 5, some ⟨1, 5, 105⟩, none, none⟩]
        ⟨1, 0, 100⟩ 6 =
      .error ⟨401, "Invalid refresh token"⟩ :=
  (refresh_token_rotation
      [⟨1, "a@b.com", "h", true, none, some ⟨1, 0, 100⟩, none, none⟩]
      ⟨1, 0, 100⟩).1
    (fun _ _ => true) "a@b.com" "pw" 5 100
    [⟨1, "a@b.com", "h", true, some 5, some ⟨1, 5, 105⟩, none, none⟩]
    ⟨1, 5, 105⟩ (by rfl) (by rfl) (by decide) 6

/-- C6: a reset token is usable at most once.  When `resetPassword`
succeeds and the stored token hash identifies a single user, afterwards no
user carries that hash any more, the matched user has BOTH reset fields
cleared together, and a second `resetPassword` with the same token — any
new password, any time — fails with `ApiError(400, "Invalid or expired
reset token")`. -/
theorem resetPassword_single_use
    (users : List UserRec) (hash hashPw : String → String) (token pw : String)
    (now : Nat) (users2 : List UserRec)
    (hok : resetPassword users hash hashPw token pw now = .ok users2)
    (huniq : ∀ v1 ∈ users, ∀ v2 ∈ users,
        v1.passwordResetToken = some (hash token) →
        v2.passwordResetToken = some (hash token) → v1.id = v2.id) :
    (∀ v ∈ users2, ¬ v.passwordResetToken = some (hash token)) ∧
    (∃ u, users.find? (fun u => decide (u.passwordResetToken = some (hash token) ∧
        expiresAfter u.passwordResetExpires now = true ∧ u.isActive = true)) = some u ∧
      ∀ v ∈ users2, v.id = u.id →
        v.passwordResetToken = none ∧ v.passwordResetExpires = none) ∧
    (∀ pw2 now2, resetPassword users2 hash hashPw token pw2 now2 =
        .error ⟨400, "Invalid or expired reset token"⟩) := by
  unfold resetPassword at hok
  cases hf : users.find? (fun u => decide (u.passwordResetToken = some (hash token) ∧
      expiresAfter u.passwordResetExpires now = true ∧ u.isActive = true)) with
  | none =>
    rw [hf] at hok
    exact absurd hok (by simp)
  | some u =>
    rw [hf] at hok
    simp only [Except.ok.injEq] at hok
    subst hok
    have hu := List.find?_some hf
    simp only [decide_eq_true_eq] at hu
    obtain ⟨hutok, _, _⟩ := hu
    have humem := List.mem_of_find?_eq_some hf
    have key : ∀ x ∈ users.map (fun v =>
        if v.id = u.id then
          { v with password := hashPw pw, passwordResetToken := none,
                   passwordResetExpires := none }
        else v), ¬ x.passwordResetToken = some (hash token) := by
      intro x hx hxtok
      obtain ⟨a, ha, hfa⟩ := List.mem_map.mp hx
      by_cases hc : a.id = u.id
      · rw [← hfa] at hxtok
        simp [hc] at hxtok
      · rw [if_neg hc] at hfa
        rw [← hfa] at hxtok
        exact hc (huniq a ha u humem hxtok hutok)
    refine ⟨key, ⟨u, rfl, ?_⟩, ?_⟩
    · intro v hv hvid
      obtain ⟨a, ha, hfa⟩ := List.mem_map.mp hv
      by_cases hc : a.id = u.id
      · rw [if_pos hc] at hfa
        rw [← hfa]
        exact ⟨rfl, rfl⟩
      · rw [if_neg hc] at hfa
        exact absurd (by rw [hfa]; exact hvid) hc
    · intro pw2 now2
      unfold resetPassword
      have hnone : (users.map (fun v =>
          if v.id = u.id then
            { v with password := hashPw pw, passwordResetToken := none,
                     passwordResetExpires := none }
          else v)).find? (fun v => decide (v.passwordResetToken = some (hash token) ∧
            expiresAfter v.passwordResetExpires now2 = true ∧ v.isActive = true)) = none := by
        rw [List.find?_eq_none]
        intro x hx
        simp only [decide_eq_true_eq]
        intro hP
        exact key x hx hP.1
      rw [hnone]

/-- C6 witness: user 1 holds reset hash toksha (hash of tok under the
collaborator appending sha) valid until time 1000; resetting at time 0
succeeds, clears both fields, and a replay of the same token fails
with 400. -/
theorem resetPassword_single_use_witness :
    (∀ v ∈ ([⟨1, "a@b.com", "new", true, none, none, none, none⟩] : List UserRec),
        ¬ v.passwordResetToken = some ((fun s => s ++ "sha") "tok")) ∧
    (∃ u, ([⟨1, "a@b.com", "old", true, none, none, some "toksha", some 1000⟩] :
        List UserRec).find? (fun u =>
          decide (u.passwordResetToken = some ((fun s => s ++ "sha") "tok") ∧
            expiresAfter u.passwordResetExpires 0 = true ∧ u.isActive = true)) = some u ∧
      ∀ v ∈ ([⟨1, "a@b.com", "new", true, none, none, none, none⟩] : List UserRec),
        v.id = u.id → v.passwordResetToken = none ∧ v.passwordResetExpires = none) ∧
    (∀ pw2 now2, resetPassword
        [⟨1, "a@b.com", "new", true, none, none, none, none⟩]
        (fun s => s ++ "sha") (fun s => s) "tok" pw2 now2 =
        .error ⟨400, "Invalid or expired reset token"⟩) :=
  resetPassword_single_use
    [⟨1, "a@b.com", "old", true, none, none, some "toksha", some 1000⟩]
    (fun s => s ++ "sha") (fun s => s) "tok" "new" 0
    [⟨1, "a@b.com", "new", true, none, none, none, none⟩]
    (by rfl) (by decide)

/-- C9: `forgotPassword` stores the reset hash with expiry exactly
`now + 10*60*1000` milliseconds — ten minutes after the current time —
and once the clock reaches or passes that expiry (e.g. eleven minutes
in), `resetPassword` with the issued token fails with
`ApiError(400, "Invalid or expired reset token")`, provided the random
token's hash did not already sit on some user. -/
theorem forgot_reset_token_expiry
    (users : List UserRec) (hash hashPw : String → String) (email token : String)
    (now : Nat) (users2 : List UserRec) (tokOut : String)
    (hok : forgotPassword users hash email token now = .ok (users2, tokOut))
    (hfresh : ∀ v ∈ users, ¬ v.passwordResetToken = some (hash token)) :
    (∃ u, users.find? (fun u => decide (u.email = email ∧ u.isActive = true)) = some u ∧
      ∀ v ∈ users2, v.id = u.id →
        v.passwordResetToken = some (hash token) ∧
        v.passwordResetExpires = some (now + 10 * 60 * 1000)) ∧
    (∀ pw2 now2, now + 10 * 60 * 1000 ≤ now2 →
      resetPassword users2 hash hashPw token pw2 now2 =
        .error ⟨400, "Invalid or expired reset token"⟩) := by
  unfold forgotPassword at hok
  cases hf : users.find? (fun u => decide (u.email = email ∧ u.isActive = true)) with
  | none =>
    rw [hf] at hok
    exact absurd hok (by simp)
  | some u =>
    rw [hf] at hok
    simp only [Except.ok.injEq, Prod.mk.injEq] at hok
    obtain ⟨hu2, _⟩ := hok
    subst hu2
    constructor
    · refine ⟨u, rfl, ?_⟩
      intro v hv hvid
      obtain ⟨a, ha, hfa⟩ := List.mem_map.mp hv
      by_cases hc : a.id = u.id
      · rw [if_pos hc] at hfa
        rw [← hfa]
        exact ⟨rfl, rfl⟩
      · rw [if_neg hc] at hfa
        exact absurd (by rw [hfa]; exact hvid) hc
    · intro pw2 now2 hle
      unfold resetPassword
      have hnone : (users.map (fun v =>
          if v.id = u.id then
            { v with passwordResetToken := some (hash token),
                     passwordResetExpires := some (now + 10 * 60 * 1000) }
          else v)).find? (fun v => decide (v.passwordResetToken = some (hash token) ∧
            expiresAfter v.passwordResetExpires now2 = true ∧ v.isActive = true)) = none := by
        rw [List.find?_eq_none]
        intro x hx
        simp only [decide_eq_true_eq]
        intro hP
        obtain ⟨hxtok, hxexp, _⟩ := hP
        obtain ⟨a, ha, hfa⟩ := List.mem_map.mp hx
        by_cases hc : a.id = u.id
        · rw [if_pos hc] at hfa
          rw [← hfa] at hxexp
          simp only [expiresAfter, decide_eq_true_eq] at hxexp
          exact absurd hxexp (Nat.not_lt.mpr hle)
        · rw [if_neg hc] at hfa
          rw [← hfa] at hxtok
          exact hfresh a ha hxtok
      rw [hnone]

/-- C9 witness: forgotPassword at time 0 stores expiry 600000 ms (ten
minutes), and resetting with the issued token at time 660000 (eleven
minutes) fails with 400. -/
theorem forgot_reset_token_expiry_witness :
    (∃ u, ([⟨1, "a@b.com", "pw", true, none, none, none, none⟩] :
        List UserRec).find? (fun u =>
          decide (u.email = "a@b.com" ∧ u.isActive = true)) = some u ∧
      ∀ v ∈ ([⟨1, "a@b.com", "pw", true, none, none, some "toksha", some 600000⟩] :
          List UserRec), v.id = u.id →
        v.passwordResetToken = some ((fun s => s ++ "sha") "tok") ∧
        v.passwordResetExpires = some (0 + 10 * 60 * 1000)) ∧
    (∀ pw2 now2, 0 + 10 * 60 * 1000 ≤ now2 →
      resetPassword [⟨1, "a@b.com", "pw", true, none, none, some "toksha", some 600000⟩]
        (fun s => s ++ "sha") (fun s => s) "tok" pw2 now2 =
        .error ⟨400, "Invalid or expired reset token"⟩) :=
  forgot_reset_token_expiry
    [⟨1, "a@b.com", "pw", true, none, none, none, none⟩]
    (fun s => s ++ "sha") (fun s => s) "a@b.com" "tok" 0
    [⟨1, "a@b.com", "pw", true, none, none, some "toksha", some 600000⟩]
    "tok" (by rfl) (by decide)

end FreelancePlatform
